import Mathlib

/-!
Verification development for the multicall SDK (EVMlord/multicall-sdk).

The embedding models the result-normalizing routine `_fullyUnwrap`
(src/helpers.ts), the revert decoder `decodeRevert` (src/helpers.ts), and the
per-result processing of the tolerant batch operations of the `Multicall`
class (`tryAggregate`, `tryBlockAndAggregate`, `aggregate3`,
`aggregate3Value`), following the variant of the class in which every
decoding operation shares the single-output / multi-output unwrap pattern.

JavaScript values that can appear in a decode result are modelled by the
inductive type `Val`:
  - scalars (string, bigint, boolean),
  - plain JS arrays (`vlist`),
  - plain JS objects (`vobj`, field-named records),
  - `ethers.Result` proxies (`vres`): a positional list of entries, each
    carrying an optional field name (named structs name every entry;
    unnamed tuples and decoded arrays carry no names).

The ABI codec (ethers) is an external collaborator: its fallible
operations are modelled as `Option`/`Except`-returning functions, so that a
thrown exception corresponds to `none`/`.error` and a try/catch corresponds
to a match on that value.
-/

namespace MulticallSdk

/-- Model of a JavaScript value occurring in decode results: a scalar, a
plain array, a plain object, or an `ethers.Result` proxy (a list of
positional entries, each with an optional field name). -/
inductive Val : Type where
  | vstr : String → Val
  | vint : Int → Val
  | vbool : Bool → Val
  | vlist : List Val → Val
  | vobj : List (String × Val) → Val
  | vres : List (Option String × Val) → Val
deriving Repr

/-- Model of `ethers.Result.toObject(true)` (deep): every entry must carry a
field name, otherwise ethers throws (modelled as `none`); entries whose
name repeats an earlier name are skipped (first occurrence wins, and the
skipped child is not converted); a child that is itself a `Result` is
converted recursively (and its failure propagates). The `seen` argument
holds the names already added. -/
def toObjectDeepGo (seen : List String) :
    List (Option String × Val) → Option (List (String × Val))
  | [] => some []
  | (none, _) :: _ => none
  | (some n, v) :: rest =>
    if n ∈ seen then toObjectDeepGo seen rest
    else
      match v with
      | Val.vres inner =>
        match toObjectDeepGo [] inner with
        | none => none
        | some o =>
          match toObjectDeepGo (n :: seen) rest with
          | none => none
          | some r => some ((n, Val.vobj o) :: r)
      | w =>
        match toObjectDeepGo (n :: seen) rest with
        | none => none
        | some r => some ((n, w) :: r)
termination_by es => sizeOf es
decreasing_by all_goals (simp_wf <;> omega)

/-- Model of `x.toObject(true)` on an `ethers.Result` with the given
entries. -/
def toObjectDeep (entries : List (Option String × Val)) :
    Option (List (String × Val)) :=
  toObjectDeepGo [] entries

mutual
/-- Model of `ethers.Result.toArray(true)` (deep) applied to one item: an
item that is itself a `Result` is converted to a plain array recursively,
any other item is kept as is. -/
def toArrayDeepItem : Val → Val
  | Val.vres inner => Val.vlist (toArrayDeep inner)
  | v => v

/-- Model of `ethers.Result.toArray(true)` (deep) on a list of entries:
the positional values, each passed through `toArrayDeepItem`. -/
def toArrayDeep : List (Option String × Val) → List Val
  | [] => []
  | (_, v) :: rest => toArrayDeepItem v :: toArrayDeep rest
end

mutual
/-- Model of `_fullyUnwrap` (src/helpers.ts lines 34-62). Case 1: a value
that looks like an `ethers.Result` (exposes `toObject` and `toArray`) is
first rendered as a deep field-named record via `toObject(true)`; if that
throws, it falls back to `toArray(false)` (the shallow positional values)
and recurses into every element. Case 2: a plain JS array is mapped
recursively. Case 3: anything else is returned unchanged. -/
def _fullyUnwrap : Val → Val
  | Val.vres entries =>
    match toObjectDeep entries with
    | some o => Val.vobj o
    | none => Val.vlist (fullyUnwrapEntries entries)
  | Val.vlist xs => Val.vlist (fullyUnwrapList xs)
  | v => v

/-- Recursion of `_fullyUnwrap` over the elements of a plain array. -/
def fullyUnwrapList : List Val → List Val
  | [] => []
  | x :: xs => _fullyUnwrap x :: fullyUnwrapList xs

/-- Recursion of `_fullyUnwrap` over the shallow `toArray(false)` view of a
`Result`: the positional values, each fully unwrapped. -/
def fullyUnwrapEntries : List (Option String × Val) → List Val
  | [] => []
  | (_, v) :: rest => _fullyUnwrap v :: fullyUnwrapEntries rest
end

/-- The elementwise recursion over a plain array is exactly a `map`. -/
theorem fullyUnwrapList_eq_map (xs : List Val) :
    fullyUnwrapList xs = xs.map _fullyUnwrap := by
  induction xs with
  | nil => rfl
  | cons x xs ih => simp [fullyUnwrapList, ih]

/-- The recursion over the shallow `toArray(false)` view is exactly a `map`
of `_fullyUnwrap` over the positional values. -/
theorem fullyUnwrapEntries_eq_map (es : List (Option String × Val)) :
    fullyUnwrapEntries es = (es.map Prod.snd).map _fullyUnwrap := by
  induction es with
  | nil => rfl
  | cons e rest ih => cases e; simp [fullyUnwrapEntries, ih]

/-- Model of the thrown error object inspected by `decodeRevert`: the four
string-typed fields the function probes (`err.reason`, `err.shortMessage`,
`err.data`, `err.receipt.revertReason`). A field whose value is absent,
null, or not a string is modelled as `none`. A null or undefined `err`
altogether is modelled by wrapping in `Option ErrObj` at the call site. -/
structure ErrObj where
  reason : Option String
  shortMessage : Option String
  data : Option String
  receiptRevertReason : Option String

/-- Model of the ABI codec operations `decodeRevert` delegates to, each
fallible: `AbiCoder.defaultAbiCoder().decode(["string"], payload)` projected
to its single value, `decode(["uint256"], payload)` likewise, and
`contractIface.parseError(raw)` returning the parsed error name together
with the already-stringified argument list. A throw, or (for `parseError`)
a null result, is modelled as `none`. -/
structure AbiEnv where
  decodeString : String → Option String
  decodeUint : String → Option Nat
  parseError : String → Option (String × List String)

/-- Optional-chaining access `err?.field`, which yields undefined when
`err` itself is null or undefined. -/
def errStringField (err : Option ErrObj) (f : ErrObj → Option String) :
    Option String :=
  match err with
  | none => none
  | some e => f e

/-- Model of helpers.ts lines 88-95: obtain the raw revert bytes from, in
order, the explicit `data` argument, `err?.data`, or
`err?.receipt?.revertReason`. -/
def rawRevertData (err : Option ErrObj) (data : Option String) :
    Option String :=
  match data with
  | some d => some d
  | none =>
    match errStringField err ErrObj.data with
    | some d => some d
    | none => errStringField err ErrObj.receiptRevertReason

/-- Model of the JavaScript builtin `String.prototype.startsWith`: the
prefix of matching length equals the probe. -/
def jsStartsWith (s p : String) : Bool :=
  s.take p.length == p

/-- Model of `decodeRevert` (src/helpers.ts lines 78-139). The JS guard
`if (!raw || !raw.startsWith("0x"))` is modelled as a single
`jsStartsWith` test on the obtained string, since the empty string (the
only falsy string) does not start with `"0x"` either. `raw.slice(0, 10)`
is `String.take 10` and `raw.slice(0, 42)` is `String.take 42`. -/
def decodeRevert (env : AbiEnv) (err : Option ErrObj) (data : Option String) :
    String :=
  match errStringField err ErrObj.reason with
  | some r => r
  | none =>
  match errStringField err ErrObj.shortMessage with
  | some m => m
  | none =>
  match rawRevertData err data with
  | none => "(no revert data)"
  | some raw =>
    if jsStartsWith raw "0x" = false then "(no revert data)"
    else
      let step3 : Option String :=
        if raw.take 10 = "0x08c379a0" then env.decodeString ("0x" ++ raw.drop 10)
        else none
      match step3 with
      | some msg => msg
      | none =>
        let step3b : Option String :=
          if jsStartsWith raw "0x4e487b71" then
            (env.decodeUint ("0x" ++ raw.drop 10)).map
              (fun code => "Panic(" ++ toString code ++ ")")
          else none
        match step3b with
        | some s => s
        | none =>
          match env.parseError raw with
          | some (n, args) => n ++ "(" ++ String.intercalate ", " args ++ ")"
          | none => "(unrecognized revert: " ++ raw.take 42 ++ "…)"

/-- Mirrors the Solidity struct returned per call by the aggregator:
`struct Result \x7b bool success; bytes returnData; \x7d`. -/
structure MulticallResult where
  success : Bool
  returnData : String

/-- Model of a `Call` descriptor as the result-processing loops consume it:
the only use of `contract`, `functionFragment` there is the composite
`contract.interface.decodeFunctionResult(functionFragment, returnData)`,
modelled as one fallible function from the return-data byte string to the
decoded `Result` entries; `.error` carries the thrown exception message. -/
structure Call where
  decodeFunctionResult : String → Except String (List (Option String × Val))

/-- Extends `Call` with the per-call failure-tolerance flag. -/
structure Call3 extends Call where
  allowFailure : Bool

/-- Extends `Call3` with the native value (a bigint, modelled as `Int`)
attached to the call. -/
structure Call3Value extends Call3 where
  value : Int

/-- Model of the value summation in `aggregate3Value`:
`calls.reduce((sum, c) => sum + c.value, 0n)`. This amount is what the
method passes as the native-currency `value` of its single RPC
invocation. -/
def totalValue (calls : List Call3Value) : Int :=
  calls.foldl (fun sum c => sum + c.value) 0

/-- Per-result decode algorithm shared by the tolerant batch operations
(the body of the arrow function each of them maps over the raw results,
for an index at which an original call exists): a failed entry keeps its
raw return data; a successful entry is decoded, a single output is taken
bare while multiple outputs go through `toArray(true)`, the outcome is
fully unwrapped, and a decode throw is caught into a
`Data handling error:` entry. -/
def decodeOneResult (call : Call) (r : MulticallResult) : Bool × Val :=
  if r.success = false then (false, Val.vstr r.returnData)
  else
    match call.decodeFunctionResult r.returnData with
    | Except.error msg => (false, Val.vstr ("Data handling error: " ++ msg))
    | Except.ok decoded =>
      let rawOutput : Val :=
        match decoded with
        | [(_, v)] => v
        | es => Val.vlist (toArrayDeep es)
      (true, _fullyUnwrap rawOutput)

/-- Result mapping of `tryAggregate` over the raw results returned by the
transport: a failed entry keeps its raw return data; a successful entry is
decoded against the original call (a missing `calls[i]` makes the property
access inside the try block throw with a host-supplied message `hostErr`),
the single output is taken bare while multiple outputs go through
`toArray(true)`, and the outcome is fully unwrapped; a decode throw is
caught into a `Data handling error:` entry. -/
def tryAggregateResults (hostErr : String) (calls : List Call)
    (rawResults : List MulticallResult) : List (Bool × Val) :=
  rawResults.mapIdx fun i r =>
    if r.success = false then (false, Val.vstr r.returnData)
    else
      match calls[i]? with
      | none => (false, Val.vstr ("Data handling error: " ++ hostErr))
      | some call =>
        match call.decodeFunctionResult r.returnData with
        | Except.error msg => (false, Val.vstr ("Data handling error: " ++ msg))
        | Except.ok decoded =>
          let rawOutput : Val :=
            match decoded with
            | [(_, v)] => v
            | es => Val.vlist (toArrayDeep es)
          (true, _fullyUnwrap rawOutput)

/-- Result mapping of `tryBlockAndAggregate` (the `returnData` component of
its returned record; `blockNumber` and `blockHash` pass through from the
transport). Identical per-entry processing to `tryAggregate`. -/
def tryBlockAndAggregateResults (hostErr : String) (calls : List Call)
    (rawResults : List MulticallResult) : List (Bool × Val) :=
  rawResults.mapIdx fun i r =>
    if r.success = false then (false, Val.vstr r.returnData)
    else
      match calls[i]? with
      | none => (false, Val.vstr ("Data handling error: " ++ hostErr))
      | some call =>
        match call.decodeFunctionResult r.returnData with
        | Except.error msg => (false, Val.vstr ("Data handling error: " ++ msg))
        | Except.ok decoded =>
          let rawOutput : Val :=
            match decoded with
            | [(_, v)] => v
            | es => Val.vlist (toArrayDeep es)
          (true, _fullyUnwrap rawOutput)

/-- Result mapping of `aggregate3` over the raw results. -/
def aggregate3Results (hostErr : String) (calls : List Call3)
    (rawResults : List MulticallResult) : List (Bool × Val) :=
  rawResults.mapIdx fun i r =>
    if r.success = false then (false, Val.vstr r.returnData)
    else
      match calls[i]? with
      | none => (false, Val.vstr ("Data handling error: " ++ hostErr))
      | some call =>
        match call.decodeFunctionResult r.returnData with
        | Except.error msg => (false, Val.vstr ("Data handling error: " ++ msg))
        | Except.ok decoded =>
          let rawOutput : Val :=
            match decoded with
            | [(_, v)] => v
            | es => Val.vlist (toArrayDeep es)
          (true, _fullyUnwrap rawOutput)

/-- Result mapping of `aggregate3Value` over the raw results. -/
def aggregate3ValueResults (hostErr : String) (calls : List Call3Value)
    (rawResults : List MulticallResult) : List (Bool × Val) :=
  rawResults.mapIdx fun i r =>
    if r.success = false then (false, Val.vstr r.returnData)
    else
      match calls[i]? with
      | none => (false, Val.vstr ("Data handling error: " ++ hostErr))
      | some call =>
        match call.decodeFunctionResult r.returnData with
        | Except.error msg => (false, Val.vstr ("Data handling error: " ++ msg))
        | Except.ok decoded =>
          let rawOutput : Val :=
            match decoded with
            | [(_, v)] => v
            | es => Val.vlist (toArrayDeep es)
          (true, _fullyUnwrap rawOutput)

/-- A value whose top-level shape is plain: a scalar, a plain ordered
list, or a plain field-named record — i.e. not a codec-native `Result`
proxy. -/
def isPlainTop : Val → Bool
  | Val.vres _ => false
  | _ => true

/-- Hex rendering of the first `n` bytes of a `0x`-prefixed hex byte
string, as the claim about the unrecognized-revert fallback reads it: the
`0x` prefix followed by `2 * n` hex digits. -/
def firstBytesHex (raw : String) (n : Nat) : String :=
  "0x" ++ (raw.drop 2).take (2 * n)

mutual
/-- The normalizer is idempotent: applying `_fullyUnwrap` to its own output
changes nothing. -/
theorem fullyUnwrap_idem : (v : Val) → _fullyUnwrap (_fullyUnwrap v) = _fullyUnwrap v
  | Val.vstr _ => rfl
  | Val.vint _ => rfl
  | Val.vbool _ => rfl
  | Val.vobj _ => rfl
  | Val.vlist xs => by
      simp [_fullyUnwrap, fullyUnwrapList_idem xs]
  | Val.vres es => by
      cases h : toObjectDeep es with
      | some o => simp [_fullyUnwrap, h]
      | none => simp [_fullyUnwrap, h, fullyUnwrapEntries_idem es]

/-- Elementwise idempotence over a plain array. -/
theorem fullyUnwrapList_idem :
    (xs : List Val) → fullyUnwrapList (fullyUnwrapList xs) = fullyUnwrapList xs
  | [] => rfl
  | x :: xs => by
      simp [fullyUnwrapList, fullyUnwrap_idem x, fullyUnwrapList_idem xs]

/-- Elementwise idempotence over the shallow view of a `Result`. -/
theorem fullyUnwrapEntries_idem :
    (es : List (Option String × Val)) →
      fullyUnwrapList (fullyUnwrapEntries es) = fullyUnwrapEntries es
  | [] => rfl
  | (_, v) :: rest => by
      simp [fullyUnwrapEntries, fullyUnwrapList, fullyUnwrap_idem v,
        fullyUnwrapEntries_idem rest]
end

/-- The output list of `tryAggregateResults` always has the length of the
raw result array. -/
theorem length_tryAggregateResults (hostErr : String) (calls : List Call)
    (raws : List MulticallResult) :
    (tryAggregateResults hostErr calls raws).length = raws.length := by
  simp [tryAggregateResults, List.length_mapIdx]

/-- The output list of `tryBlockAndAggregateResults` always has the length
of the raw result array. -/
theorem length_tryBlockAndAggregateResults (hostErr : String)
    (calls : List Call) (raws : List MulticallResult) :
    (tryBlockAndAggregateResults hostErr calls raws).length = raws.length := by
  simp [tryBlockAndAggregateResults, List.length_mapIdx]

/-- The output list of `aggregate3Results` always has the length of the
raw result array. -/
theorem length_aggregate3Results (hostErr : String) (calls : List Call3)
    (raws : List MulticallResult) :
    (aggregate3Results hostErr calls raws).length = raws.length := by
  simp [aggregate3Results, List.length_mapIdx]

/-- The output list of `aggregate3ValueResults` always has the length of
the raw result array. -/
theorem length_aggregate3ValueResults (hostErr : String)
    (calls : List Call3Value) (raws : List MulticallResult) :
    (aggregate3ValueResults hostErr calls raws).length = raws.length := by
  simp [aggregate3ValueResults, List.length_mapIdx]

/-- When an original call exists at index `i`, the `i`-th entry produced by
`tryAggregateResults` is the shared per-result decode algorithm applied to
that call and the `i`-th raw result. -/
theorem get_tryAggregateResults (hostErr : String) (calls : List Call)
    (raws : List MulticallResult) (i : Nat) (h : i < raws.length)
    (call : Call) (hc : calls[i]? = some call)
    (h2 : i < (tryAggregateResults hostErr calls raws).length) :
    (tryAggregateResults hostErr calls raws).get ⟨i, h2⟩
      = decodeOneResult call raws[i] := by
  unfold tryAggregateResults
  rw [List.get_mapIdx _ _ i h]
  cases hs : raws[i].success <;>
    simp [decodeOneResult, hc, hs]

/-- When an original call exists at index `i`, the `i`-th entry produced by
`tryBlockAndAggregateResults` is the shared per-result decode algorithm
applied to that call and the `i`-th raw result. -/
theorem get_tryBlockAndAggregateResults (hostErr : String)
    (calls : List Call) (raws : List MulticallResult) (i : Nat)
    (h : i < raws.length) (call : Call) (hc : calls[i]? = some call)
    (h2 : i < (tryBlockAndAggregateResults hostErr calls raws).length) :
    (tryBlockAndAggregateResults hostErr calls raws).get ⟨i, h2⟩
      = decodeOneResult call raws[i] := by
  unfold tryBlockAndAggregateResults
  rw [List.get_mapIdx _ _ i h]
  cases hs : raws[i].success <;>
    simp [decodeOneResult, hc, hs]

/-- When an original call exists at index `i`, the `i`-th entry produced by
`aggregate3Results` is the shared per-result decode algorithm applied to
that call and the `i`-th raw result. -/
theorem get_aggregate3Results (hostErr : String) (calls : List Call3)
    (raws : List MulticallResult) (i : Nat) (h : i < raws.length)
    (call : Call3) (hc : calls[i]? = some call)
    (h2 : i < (aggregate3Results hostErr calls raws).length) :
    (aggregate3Results hostErr calls raws).get ⟨i, h2⟩
      = decodeOneResult call.toCall raws[i] := by
  unfold aggregate3Results
  rw [List.get_mapIdx _ _ i h]
  cases hs : raws[i].success <;>
    simp [decodeOneResult, hc, hs]

/-- When an original call exists at index `i`, the `i`-th entry produced by
`aggregate3ValueResults` is the shared per-result decode algorithm applied
to that call and the `i`-th raw result. -/
theorem get_aggregate3ValueResults (hostErr : String)
    (calls : List Call3Value) (raws : List MulticallResult) (i : Nat)
    (h : i < raws.length) (call : Call3Value) (hc : calls[i]? = some call)
    (h2 : i < (aggregate3ValueResults hostErr calls raws).length) :
    (aggregate3ValueResults hostErr calls raws).get ⟨i, h2⟩
      = decodeOneResult call.toCall3.toCall raws[i] := by
  unfold aggregate3ValueResults
  rw [List.get_mapIdx _ _ i h]
  cases hs : raws[i].success <;>
    simp [decodeOneResult, hc, hs]

/-- On a failed raw result, every operation yields the raw return data as
the entry payload, regardless of whether an original call exists at the
index. Stated for the common mapping body through `tryAggregateResults`;
the other operations share the body definitionally. -/
theorem get_tryAggregateResults_failure (hostErr : String)
    (calls : List Call) (raws : List MulticallResult) (i : Nat)
    (h : i < raws.length) (hfail : raws[i].success = false)
    (h2 : i < (tryAggregateResults hostErr calls raws).length) :
    (tryAggregateResults hostErr calls raws).get ⟨i, h2⟩
      = (false, Val.vstr (raws[i].returnData)) := by
  unfold tryAggregateResults
  rw [List.get_mapIdx _ _ i h]
  simp [hfail]

/-- C6: for every list of `Call3Value` descriptors, including the empty
list, the native-currency amount `aggregate3Value` attaches to its single
RPC invocation — the reduce over the per-call `value` fields modelled by
`totalValue` — equals the exact big-integer sum of the per-call `value`
fields. -/
theorem C6_totalValue_is_sum (calls : List Call3Value) :
    totalValue calls = (calls.map Call3Value.value).sum := by
  rw [totalValue, List.sum_eq_foldl, List.foldl_map]

/-- C9: the Result Normalizer is idempotent on its own output — for every
input whose normalization yields a plain value (a scalar, a plain ordered
list, or a plain field-named record), applying `_fullyUnwrap` to that
output returns it unchanged. -/
theorem C9_normalizer_idempotent (x : Val)
    (h : isPlainTop (_fullyUnwrap x) = true) :
    _fullyUnwrap (_fullyUnwrap x) = _fullyUnwrap x :=
  fullyUnwrap_idem x

/-- Witness for C9 at a concrete codec-native input: an unnamed pair
normalizes to a plain list, and renormalizing that output is the
identity. -/
theorem C9_normalizer_idempotent_witness :
    isPlainTop (_fullyUnwrap (Val.vres [(none, Val.vint 3), (none, Val.vstr "t")])) = true
    ∧ _fullyUnwrap (_fullyUnwrap (Val.vres [(none, Val.vint 3), (none, Val.vstr "t")]))
        = _fullyUnwrap (Val.vres [(none, Val.vint 3), (none, Val.vstr "t")]) :=
  ⟨by simp [_fullyUnwrap, toObjectDeep, toObjectDeepGo, isPlainTop],
   C9_normalizer_idempotent _
     (by simp [_fullyUnwrap, toObjectDeep, toObjectDeepGo, isPlainTop])⟩

/-- C1: the Result Normalizer proceeds by exactly these cases — a
codec-native structured result is first rendered as a deep field-named
record, and if that rendering fails it is rendered as a shallow ordered
list with `_fullyUnwrap` applied recursively to every element; an ordinary
list is replaced by the list of its recursively normalized elements; a
scalar is returned unchanged. -/
theorem C1_fullyUnwrap_cases :
    (∀ es o, toObjectDeep es = some o →
        _fullyUnwrap (Val.vres es) = Val.vobj o)
    ∧ (∀ es, toObjectDeep es = none →
        _fullyUnwrap (Val.vres es)
          = Val.vlist ((es.map Prod.snd).map _fullyUnwrap))
    ∧ (∀ xs, _fullyUnwrap (Val.vlist xs) = Val.vlist (xs.map _fullyUnwrap))
    ∧ (∀ s, _fullyUnwrap (Val.vstr s) = Val.vstr s)
    ∧ (∀ n, _fullyUnwrap (Val.vint n) = Val.vint n)
    ∧ (∀ b, _fullyUnwrap (Val.vbool b) = Val.vbool b) := by
  refine ⟨?_, ?_, ?_, ?_, ?_, ?_⟩
  · intro es o h; simp [_fullyUnwrap, h]
  · intro es h; simp [_fullyUnwrap, h, fullyUnwrapEntries_eq_map]
  · intro xs; simp [_fullyUnwrap, fullyUnwrapList_eq_map]
  · intro s; rfl
  · intro n; rfl
  · intro b; rfl

/-- Witness for C1 at concrete inputs: a named single-entry result renders
as a record, an unnamed result falls back to the recursively normalized
shallow list, and a plain list is normalized elementwise. -/
theorem C1_fullyUnwrap_cases_witness :
    toObjectDeep [(some "a", Val.vint 1)] = some [("a", Val.vint 1)]
    ∧ _fullyUnwrap (Val.vres [(some "a", Val.vint 1)])
        = Val.vobj [("a", Val.vint 1)]
    ∧ toObjectDeep [(none, Val.vint 2)] = none
    ∧ _fullyUnwrap (Val.vres [(none, Val.vint 2)])
        = Val.vlist ((([(none, Val.vint 2)] : List (Option String × Val)).map
            Prod.snd).map _fullyUnwrap)
    ∧ _fullyUnwrap (Val.vlist [Val.vbool true])
        = Val.vlist ([Val.vbool true].map _fullyUnwrap) := by
  refine ⟨?_, ?_, ?_, ?_, ?_⟩
  · simp [toObjectDeep, toObjectDeepGo]
  · exact C1_fullyUnwrap_cases.1 _ _ (by simp [toObjectDeep, toObjectDeepGo])
  · simp [toObjectDeep, toObjectDeepGo]
  · exact C1_fullyUnwrap_cases.2.1 _ (by simp [toObjectDeep, toObjectDeepGo])
  · exact C1_fullyUnwrap_cases.2.2.1 _

/-- C7: for every tolerant batching operation, under the precondition that
the transport returns exactly one raw result per input call in input
order, the returned array has the length of the input call list and its
`i`-th entry is the per-result decode algorithm applied to the `i`-th
input call and the `i`-th raw result — no call dropped, no result
reordered. -/
theorem C7_order_and_length (hostErr : String)
    (calls : List Call) (raws : List MulticallResult)
    (hlen : raws.length = calls.length)
    (calls3 : List Call3) (raws3 : List MulticallResult)
    (hlen3 : raws3.length = calls3.length)
    (callsV : List Call3Value) (rawsV : List MulticallResult)
    (hlenV : rawsV.length = callsV.length) :
    ((tryAggregateResults hostErr calls raws).length = calls.length
     ∧ ∀ i, (hi : i < calls.length) →
         (tryAggregateResults hostErr calls raws).get
             ⟨i, by rw [length_tryAggregateResults, hlen]; exact hi⟩
           = decodeOneResult (calls.get ⟨i, hi⟩) (raws.get ⟨i, by omega⟩))
    ∧ ((tryBlockAndAggregateResults hostErr calls raws).length = calls.length
     ∧ ∀ i, (hi : i < calls.length) →
         (tryBlockAndAggregateResults hostErr calls raws).get
             ⟨i, by rw [length_tryBlockAndAggregateResults, hlen]; exact hi⟩
           = decodeOneResult (calls.get ⟨i, hi⟩) (raws.get ⟨i, by omega⟩))
    ∧ ((aggregate3Results hostErr calls3 raws3).length = calls3.length
     ∧ ∀ i, (hi : i < calls3.length) →
         (aggregate3Results hostErr calls3 raws3).get
             ⟨i, by rw [length_aggregate3Results, hlen3]; exact hi⟩
           = decodeOneResult (calls3.get ⟨i, hi⟩).toCall (raws3.get ⟨i, by omega⟩))
    ∧ ((aggregate3ValueResults hostErr callsV rawsV).length = callsV.length
     ∧ ∀ i, (hi : i < callsV.length) →
         (aggregate3ValueResults hostErr callsV rawsV).get
             ⟨i, by rw [length_aggregate3ValueResults, hlenV]; exact hi⟩
           = decodeOneResult (callsV.get ⟨i, hi⟩).toCall3.toCall
               (rawsV.get ⟨i, by omega⟩)) := by
  refine ⟨⟨?_, ?_⟩, ⟨?_, ?_⟩, ⟨?_, ?_⟩, ?_, ?_⟩
  · rw [length_tryAggregateResults, hlen]
  · intro i hi
    exact get_tryAggregateResults hostErr calls raws i (by omega) _
      (List.getElem?_eq_getElem hi) _
  · rw [length_tryBlockAndAggregateResults, hlen]
  · intro i hi
    exact get_tryBlockAndAggregateResults hostErr calls raws i (by omega) _
      (List.getElem?_eq_getElem hi) _
  · rw [length_aggregate3Results, hlen3]
  · intro i hi
    exact get_aggregate3Results hostErr calls3 raws3 i (by omega) _
      (List.getElem?_eq_getElem hi) _
  · rw [length_aggregate3ValueResults, hlenV]
  · intro i hi
    exact get_aggregate3ValueResults hostErr callsV rawsV i (by omega) _
      (List.getElem?_eq_getElem hi) _

/-- Witness for C7: one input call and one raw result produce a
one-element output whose only entry is the decode of that call and raw
result. -/
theorem C7_order_and_length_witness :
    ([(⟨true, "0x01"⟩ : MulticallResult)]).length
        = ([(⟨fun _ => Except.ok [(none, Val.vint 7)]⟩ : Call)]).length
    ∧ (tryAggregateResults "E"
          [(⟨fun _ => Except.ok [(none, Val.vint 7)]⟩ : Call)]
          [(⟨true, "0x01"⟩ : MulticallResult)]).length = 1
    ∧ (tryAggregateResults "E"
          [(⟨fun _ => Except.ok [(none, Val.vint 7)]⟩ : Call)]
          [(⟨true, "0x01"⟩ : MulticallResult)]).get
          ⟨0, by rw [length_tryAggregateResults]; decide⟩
        = decodeOneResult (⟨fun _ => Except.ok [(none, Val.vint 7)]⟩ : Call)
            ⟨true, "0x01"⟩ := by
  have h := C7_order_and_length "E"
    [(⟨fun _ => Except.ok [(none, Val.vint 7)]⟩ : Call)]
    [(⟨true, "0x01"⟩ : MulticallResult)] rfl [] [] rfl [] [] rfl
  exact ⟨rfl, h.1.1, h.1.2 0 (by decide)⟩

set_option maxRecDepth 4096 in
/-- C2 counterexample: at a failing raw result with return data
`0xdeadbeef`, `tryAggregate` and `aggregate3` put the raw byte string into
the entry, and that payload differs from the `Revert:`-prefixed decoded
string the claim prescribes (shown for the decoded form produced by an
empty thrown-error object and a codec that recognizes nothing, as in the
claim's `decodeRevert(\x7b\x7d, rawReturnData, abi)`). -/
theorem C2_counterexample :
    tryAggregateResults "host error"
        [(⟨fun _ => Except.error "unused"⟩ : Call)]
        [(⟨false, "0xdeadbeef"⟩ : MulticallResult)]
      = [(false, Val.vstr "0xdeadbeef")]
    ∧ aggregate3Results "host error"
        [(⟨⟨fun _ => Except.error "unused"⟩, true⟩ : Call3)]
        [(⟨false, "0xdeadbeef"⟩ : MulticallResult)]
      = [(false, Val.vstr "0xdeadbeef")]
    ∧ decodeRevert ⟨fun _ => none, fun _ => none, fun _ => none⟩
        (some ⟨none, none, none, none⟩) (some "0xdeadbeef")
      = "(unrecognized revert: 0xdeadbeef…)"
    ∧ "0xdeadbeef"
      ≠ "Revert: "
          ++ decodeRevert ⟨fun _ => none, fun _ => none, fun _ => none⟩
               (some ⟨none, none, none, none⟩) (some "0xdeadbeef") := by
  refine ⟨rfl, rfl, by decide, by decide⟩

/-- C2 (amended): for every tolerant batch operation and every per-call
result whose success flag is false, the returned entry is
`[false, rawReturnData]` — the raw, undecoded return-data byte string,
with no `Revert:` prefix and no revert decoding. -/
theorem C2_amended_raw_failure_payload (hostErr : String)
    (calls : List Call) (calls3 : List Call3) (callsV : List Call3Value)
    (raws : List MulticallResult) (i : Nat) (h : i < raws.length)
    (hfail : raws[i].success = false) :
    (tryAggregateResults hostErr calls raws).get
        ⟨i, by rw [length_tryAggregateResults]; exact h⟩
      = (false, Val.vstr (raws[i].returnData))
    ∧ (tryBlockAndAggregateResults hostErr calls raws).get
        ⟨i, by rw [length_tryBlockAndAggregateResults]; exact h⟩
      = (false, Val.vstr (raws[i].returnData))
    ∧ (aggregate3Results hostErr calls3 raws).get
        ⟨i, by rw [length_aggregate3Results]; exact h⟩
      = (false, Val.vstr (raws[i].returnData))
    ∧ (aggregate3ValueResults hostErr callsV raws).get
        ⟨i, by rw [length_aggregate3ValueResults]; exact h⟩
      = (false, Val.vstr (raws[i].returnData)) := by
  refine ⟨?_, ?_, ?_, ?_⟩
  · unfold tryAggregateResults
    rw [List.get_mapIdx _ _ i h]; simp [hfail]
  · unfold tryBlockAndAggregateResults
    rw [List.get_mapIdx _ _ i h]; simp [hfail]
  · unfold aggregate3Results
    rw [List.get_mapIdx _ _ i h]; simp [hfail]
  · unfold aggregate3ValueResults
    rw [List.get_mapIdx _ _ i h]; simp [hfail]

/-- Witness for the amended C2 at a concrete failing result. -/
theorem C2_amended_raw_failure_payload_witness :
    (tryAggregateResults "E" [] [(⟨false, "0xff"⟩ : MulticallResult)]).get
        ⟨0, by rw [length_tryAggregateResults]; decide⟩
      = (false, Val.vstr "0xff")
    ∧ (tryBlockAndAggregateResults "E" []
          [(⟨false, "0xff"⟩ : MulticallResult)]).get
        ⟨0, by rw [length_tryBlockAndAggregateResults]; decide⟩
      = (false, Val.vstr "0xff")
    ∧ (aggregate3Results "E" [] [(⟨false, "0xff"⟩ : MulticallResult)]).get
        ⟨0, by rw [length_aggregate3Results]; decide⟩
      = (false, Val.vstr "0xff")
    ∧ (aggregate3ValueResults "E" []
          [(⟨false, "0xff"⟩ : MulticallResult)]).get
        ⟨0, by rw [length_aggregate3ValueResults]; decide⟩
      = (false, Val.vstr "0xff") :=
  C2_amended_raw_failure_payload "E" [] [] [] [⟨false, "0xff"⟩] 0
    (by decide) rfl

/-- C5: when a raw result is successful but its return bytes fail to
decode against the original call (the decode throws with some message),
every tolerant operation catches locally and yields the entry
`[false, "Data handling error: " ++ message]`; the batch result stays a
fully defined array of the raw-result length, so the exception is never a
failure of the whole operation. -/
theorem C5_decode_error_entry (hostErr : String)
    (calls : List Call) (calls3 : List Call3) (callsV : List Call3Value)
    (raws : List MulticallResult) (i : Nat) (h : i < raws.length)
    (hok : raws[i].success = true) (msg : String)
    (call : Call) (hc : calls[i]? = some call)
    (hdec : call.decodeFunctionResult (raws[i].returnData) = Except.error msg)
    (call3 : Call3) (hc3 : calls3[i]? = some call3)
    (hdec3 : call3.decodeFunctionResult (raws[i].returnData)
        = Except.error msg)
    (callV : Call3Value) (hcV : callsV[i]? = some callV)
    (hdecV : callV.decodeFunctionResult (raws[i].returnData)
        = Except.error msg) :
    (tryAggregateResults hostErr calls raws).get
        ⟨i, by rw [length_tryAggregateResults]; exact h⟩
      = (false, Val.vstr ("Data handling error: " ++ msg))
    ∧ (tryBlockAndAggregateResults hostErr calls raws).get
        ⟨i, by rw [length_tryBlockAndAggregateResults]; exact h⟩
      = (false, Val.vstr ("Data handling error: " ++ msg))
    ∧ (aggregate3Results hostErr calls3 raws).get
        ⟨i, by rw [length_aggregate3Results]; exact h⟩
      = (false, Val.vstr ("Data handling error: " ++ msg))
    ∧ (aggregate3ValueResults hostErr callsV raws).get
        ⟨i, by rw [length_aggregate3ValueResults]; exact h⟩
      = (false, Val.vstr ("Data handling error: " ++ msg))
    ∧ (tryAggregateResults hostErr calls raws).length = raws.length
    ∧ (tryBlockAndAggregateResults hostErr calls raws).length = raws.length
    ∧ (aggregate3Results hostErr calls3 raws).length = raws.length
    ∧ (aggregate3ValueResults hostErr callsV raws).length = raws.length := by
  refine ⟨?_, ?_, ?_, ?_,
    length_tryAggregateResults hostErr calls raws,
    length_tryBlockAndAggregateResults hostErr calls raws,
    length_aggregate3Results hostErr calls3 raws,
    length_aggregate3ValueResults hostErr callsV raws⟩
  · rw [get_tryAggregateResults hostErr calls raws i h call hc]
    simp [decodeOneResult, hok, hdec]
  · rw [get_tryBlockAndAggregateResults hostErr calls raws i h call hc]
    simp [decodeOneResult, hok, hdec]
  · rw [get_aggregate3Results hostErr calls3 raws i h call3 hc3]
    simp [decodeOneResult, hok, hdec3]
  · rw [get_aggregate3ValueResults hostErr callsV raws i h callV hcV]
    simp [decodeOneResult, hok, hdecV]

/-- Witness for C5 at a concrete always-throwing decode. -/
theorem C5_decode_error_entry_witness :
    (tryAggregateResults "E"
        [(⟨fun _ => Except.error "bad data"⟩ : Call)]
        [(⟨true, "0x00"⟩ : MulticallResult)]).get
        ⟨0, by rw [length_tryAggregateResults]; decide⟩
      = (false, Val.vstr ("Data handling error: " ++ "bad data")) :=
  (C5_decode_error_entry "E"
    [(⟨fun _ => Except.error "bad data"⟩ : Call)]
    [(⟨⟨fun _ => Except.error "bad data"⟩, true⟩ : Call3)]
    [(⟨⟨⟨fun _ => Except.error "bad data"⟩, true⟩, 0⟩ : Call3Value)]
    [⟨true, "0x00"⟩] 0 (by decide) rfl "bad data"
    _ rfl rfl _ rfl rfl _ rfl rfl).1

/-- C4: for every successful per-call result in a decoding batch
operation — if the original call decodes to exactly one output, the entry
payload is that single value passed bare to the Result Normalizer, not a
one-element list; if it decodes to multiple outputs, the decode result is
flattened to a deep ordered list first and the payload is an ordered list
whose elements are each fully normalized. -/
theorem C4_payload_shape (hostErr : String)
    (calls : List Call) (calls3 : List Call3) (callsV : List Call3Value)
    (raws : List MulticallResult) (i : Nat) (h : i < raws.length)
    (hok : raws[i].success = true)
    (call : Call) (hc : calls[i]? = some call)
    (call3 : Call3) (hc3 : calls3[i]? = some call3)
    (callV : Call3Value) (hcV : callsV[i]? = some callV) :
    (∀ nm v, call.decodeFunctionResult (raws[i].returnData)
          = Except.ok [(nm, v)] →
        (tryAggregateResults hostErr calls raws).get
            ⟨i, by rw [length_tryAggregateResults]; exact h⟩
          = (true, _fullyUnwrap v)
        ∧ (tryBlockAndAggregateResults hostErr calls raws).get
            ⟨i, by rw [length_tryBlockAndAggregateResults]; exact h⟩
          = (true, _fullyUnwrap v))
    ∧ (∀ entries, call.decodeFunctionResult (raws[i].returnData)
          = Except.ok entries →
        entries.length ≠ 1 →
        (tryAggregateResults hostErr calls raws).get
            ⟨i, by rw [length_tryAggregateResults]; exact h⟩
          = (true, Val.vlist ((toArrayDeep entries).map _fullyUnwrap))
        ∧ (tryBlockAndAggregateResults hostErr calls raws).get
            ⟨i, by rw [length_tryBlockAndAggregateResults]; exact h⟩
          = (true, Val.vlist ((toArrayDeep entries).map _fullyUnwrap)))
    ∧ (∀ nm v, call3.decodeFunctionResult (raws[i].returnData)
          = Except.ok [(nm, v)] →
        (aggregate3Results hostErr calls3 raws).get
            ⟨i, by rw [length_aggregate3Results]; exact h⟩
          = (true, _fullyUnwrap v))
    ∧ (∀ entries, call3.decodeFunctionResult (raws[i].returnData)
          = Except.ok entries →
        entries.length ≠ 1 →
        (aggregate3Results hostErr calls3 raws).get
            ⟨i, by rw [length_aggregate3Results]; exact h⟩
          = (true, Val.vlist ((toArrayDeep entries).map _fullyUnwrap)))
    ∧ (∀ nm v, callV.decodeFunctionResult (raws[i].returnData)
          = Except.ok [(nm, v)] →
        (aggregate3ValueResults hostErr callsV raws).get
            ⟨i, by rw [length_aggregate3ValueResults]; exact h⟩
          = (true, _fullyUnwrap v))
    ∧ (∀ entries, callV.decodeFunctionResult (raws[i].returnData)
          = Except.ok entries →
        entries.length ≠ 1 →
        (aggregate3ValueResults hostErr callsV raws).get
            ⟨i, by rw [length_aggregate3ValueResults]; exact h⟩
          = (true, Val.vlist ((toArrayDeep entries).map _fullyUnwrap))) := by
  have multiShape : ∀ entries : List (Option String × Val),
      entries.length ≠ 1 →
      (match entries with
        | [(_, v)] => v
        | es => Val.vlist (toArrayDeep es))
        = Val.vlist (toArrayDeep entries) := by
    intro entries hne
    match entries with
    | [] => rfl
    | [(nm0, v0)] => exact absurd rfl hne
    | (e1 :: e2 :: rest) => rfl
  refine ⟨?_, ?_, ?_, ?_, ?_, ?_⟩
  · intro nm v hdec
    constructor
    · rw [get_tryAggregateResults hostErr calls raws i h call hc]
      simp [decodeOneResult, hok, hdec]
    · rw [get_tryBlockAndAggregateResults hostErr calls raws i h call hc]
      simp [decodeOneResult, hok, hdec]
  · intro entries hdec hne
    constructor
    · rw [get_tryAggregateResults hostErr calls raws i h call hc]
      simp [decodeOneResult, hok, hdec, multiShape entries hne,
        _fullyUnwrap, fullyUnwrapList_eq_map]
    · rw [get_tryBlockAndAggregateResults hostErr calls raws i h call hc]
      simp [decodeOneResult, hok, hdec, multiShape entries hne,
        _fullyUnwrap, fullyUnwrapList_eq_map]
  · intro nm v hdec
    rw [get_aggregate3Results hostErr calls3 raws i h call3 hc3]
    simp [decodeOneResult, hok, hdec]
  · intro entries hdec hne
    rw [get_aggregate3Results hostErr calls3 raws i h call3 hc3]
    simp [decodeOneResult, hok, hdec, multiShape entries hne,
      _fullyUnwrap, fullyUnwrapList_eq_map]
  · intro nm v hdec
    rw [get_aggregate3ValueResults hostErr callsV raws i h callV hcV]
    simp [decodeOneResult, hok, hdec]
  · intro entries hdec hne
    rw [get_aggregate3ValueResults hostErr callsV raws i h callV hcV]
    simp [decodeOneResult, hok, hdec, multiShape entries hne,
      _fullyUnwrap, fullyUnwrapList_eq_map]

/-- Witness for C4 at concrete calls: a single-output decode yields the
bare normalized scalar, and a two-output decode yields the ordered list of
normalized elements. -/
theorem C4_payload_shape_witness :
    (tryAggregateResults "E"
        [(⟨fun _ => Except.ok [(none, Val.vint 5)]⟩ : Call)]
        [(⟨true, "0x05"⟩ : MulticallResult)]).get
        ⟨0, by rw [length_tryAggregateResults]; decide⟩
      = (true, _fullyUnwrap (Val.vint 5))
    ∧ (tryAggregateResults "E"
        [(⟨fun _ => Except.ok [(none, Val.vint 1), (none, Val.vint 2)]⟩ : Call)]
        [(⟨true, "0x0102"⟩ : MulticallResult)]).get
        ⟨0, by rw [length_tryAggregateResults]; decide⟩
      = (true, Val.vlist
          ((toArrayDeep [(none, Val.vint 1), (none, Val.vint 2)]).map
            _fullyUnwrap)) := by
  constructor
  · exact ((C4_payload_shape "E"
      [(⟨fun _ => Except.ok [(none, Val.vint 5)]⟩ : Call)]
      [(⟨⟨fun _ => Except.ok [(none, Val.vint 5)]⟩, true⟩ : Call3)]
      [(⟨⟨⟨fun _ => Except.ok [(none, Val.vint 5)]⟩, true⟩, 0⟩ : Call3Value)]
      [⟨true, "0x05"⟩] 0 (by decide) rfl _ rfl _ rfl _ rfl).1 none
      (Val.vint 5) rfl).1
  · exact ((C4_payload_shape "E"
      [(⟨fun _ => Except.ok [(none, Val.vint 1), (none, Val.vint 2)]⟩ : Call)]
      [(⟨⟨fun _ => Except.ok [(none, Val.vint 1), (none, Val.vint 2)]⟩,
          true⟩ : Call3)]
      [(⟨⟨⟨fun _ => Except.ok [(none, Val.vint 1), (none, Val.vint 2)]⟩,
          true⟩, 0⟩ : Call3Value)]
      [⟨true, "0x0102"⟩] 0 (by decide) rfl _ rfl _ rfl _ rfl).2.1
      [(none, Val.vint 1), (none, Val.vint 2)] rfl (by decide)).1

/-- C3: `decodeRevert` tries interpretations in strict priority order and
returns at the first success — a pre-extracted `reason` (then
`shortMessage`) is returned verbatim; with no obtainable `0x` byte string
it returns `(no revert data)`; bytes with the `Error(string)` selector
decode to the returned text; otherwise bytes with the panic selector
decode to `Panic(code)`; otherwise a resolvable custom error yields
`Name(args)`; every decode failure falls through to the next step. -/
theorem C3_decodeRevert_priority (env : AbiEnv) (err : Option ErrObj)
    (data : Option String) :
    (∀ r, errStringField err ErrObj.reason = some r →
        decodeRevert env err data = r)
    ∧ (∀ m, errStringField err ErrObj.reason = none →
        errStringField err ErrObj.shortMessage = some m →
        decodeRevert env err data = m)
    ∧ (errStringField err ErrObj.reason = none →
        errStringField err ErrObj.shortMessage = none →
        (rawRevertData err data = none
          ∨ ∃ raw, rawRevertData err data = some raw
              ∧ jsStartsWith raw "0x" = false) →
        decodeRevert env err data = "(no revert data)")
    ∧ (∀ raw msg, errStringField err ErrObj.reason = none →
        errStringField err ErrObj.shortMessage = none →
        rawRevertData err data = some raw →
        jsStartsWith raw "0x" = true →
        raw.take 10 = "0x08c379a0" →
        env.decodeString ("0x" ++ raw.drop 10) = some msg →
        decodeRevert env err data = msg)
    ∧ (∀ raw code, errStringField err ErrObj.reason = none →
        errStringField err ErrObj.shortMessage = none →
        rawRevertData err data = some raw →
        jsStartsWith raw "0x" = true →
        (raw.take 10 = "0x08c379a0" →
          env.decodeString ("0x" ++ raw.drop 10) = none) →
        jsStartsWith raw "0x4e487b71" = true →
        env.decodeUint ("0x" ++ raw.drop 10) = some code →
        decodeRevert env err data = "Panic(" ++ toString code ++ ")")
    ∧ (∀ raw nm args, errStringField err ErrObj.reason = none →
        errStringField err ErrObj.shortMessage = none →
        rawRevertData err data = some raw →
        jsStartsWith raw "0x" = true →
        (raw.take 10 = "0x08c379a0" →
          env.decodeString ("0x" ++ raw.drop 10) = none) →
        (jsStartsWith raw "0x4e487b71" = true →
          env.decodeUint ("0x" ++ raw.drop 10) = none) →
        env.parseError raw = some (nm, args) →
        decodeRevert env err data
          = nm ++ "(" ++ String.intercalate ", " args ++ ")") := by
  refine ⟨?_, ?_, ?_, ?_, ?_, ?_⟩
  · intro r h1
    simp [decodeRevert, h1]
  · intro m h1 h2
    simp [decodeRevert, h1, h2]
  · intro h1 h2 h3
    rcases h3 with h3 | ⟨raw, h3, h4⟩
    · simp [decodeRevert, h1, h2, h3]
    · simp [decodeRevert, h1, h2, h3, h4]
  · intro raw msg h1 h2 h3 h4 h5 h6
    simp [decodeRevert, h1, h2, h3, h4, h5, h6]
  · intro raw code h1 h2 h3 h4 h5 h6 h7
    by_cases hsel : raw.take 10 = "0x08c379a0"
    · simp [decodeRevert, h1, h2, h3, h4, hsel, h5 hsel, h6, h7]
    · simp [decodeRevert, h1, h2, h3, h4, hsel, h6, h7]
  · intro raw nm args h1 h2 h3 h4 h5 h6 h7
    by_cases hsel : raw.take 10 = "0x08c379a0" <;>
      by_cases hpan : jsStartsWith raw "0x4e487b71" = true
    · simp [decodeRevert, h1, h2, h3, h4, hsel, h5 hsel, hpan, h6 hpan, h7]
    · simp [decodeRevert, h1, h2, h3, h4, hsel, h5 hsel, hpan, h7]
    · simp [decodeRevert, h1, h2, h3, h4, hsel, hpan, h6 hpan, h7]
    · simp [decodeRevert, h1, h2, h3, h4, hsel, hpan, h7]

/-- Witness for C3 at concrete inputs: a carried reason wins outright, an
`Error(string)` payload decodes to its message, and a panic payload yields
the panic rendering. -/
theorem C3_decodeRevert_priority_witness :
    decodeRevert ⟨fun _ => some "boom", fun _ => some 1, fun _ => none⟩
        (some ⟨some "oops", none, none, none⟩) none = "oops"
    ∧ decodeRevert ⟨fun _ => some "boom", fun _ => some 1, fun _ => none⟩
        none (some "0x08c379a000") = "boom"
    ∧ decodeRevert ⟨fun _ => some "boom", fun _ => some 1, fun _ => none⟩
        none (some "0x4e487b7100") = "Panic(" ++ toString 1 ++ ")" := by
  refine ⟨?_, ?_, ?_⟩
  · exact (C3_decodeRevert_priority _ _ _).1 "oops" rfl
  · exact (C3_decodeRevert_priority _ _ _).2.2.2.1 "0x08c379a000" "boom"
      rfl rfl rfl (by decide) (by decide) rfl
  · exact (C3_decodeRevert_priority _ _ _).2.2.2.2.1 "0x4e487b7100" 1
      rfl rfl rfl (by decide) (fun hsel => absurd hsel (by decide))
      (by decide) rfl

/-- C10: `decodeRevert` is total and exception-free — for every codec
behavior, every thrown-error shape (including a null error or one missing
all probed fields) and every optional raw-data string it returns a string,
and that string is always one of the seven outcome forms of the cascade;
each fallible codec call is matched on, so its failure falls through
rather than propagating. -/
theorem C10_decodeRevert_total (env : AbiEnv) (err : Option ErrObj)
    (data : Option String) :
    (∃ r, errStringField err ErrObj.reason = some r
        ∧ decodeRevert env err data = r)
    ∨ (∃ m, errStringField err ErrObj.shortMessage = some m
        ∧ decodeRevert env err data = m)
    ∨ decodeRevert env err data = "(no revert data)"
    ∨ (∃ raw msg, rawRevertData err data = some raw
        ∧ env.decodeString ("0x" ++ raw.drop 10) = some msg
        ∧ decodeRevert env err data = msg)
    ∨ (∃ raw code, rawRevertData err data = some raw
        ∧ env.decodeUint ("0x" ++ raw.drop 10) = some code
        ∧ decodeRevert env err data = "Panic(" ++ toString code ++ ")")
    ∨ (∃ raw nm args, rawRevertData err data = some raw
        ∧ env.parseError raw = some (nm, args)
        ∧ decodeRevert env err data
            = nm ++ "(" ++ String.intercalate ", " args ++ ")")
    ∨ (∃ raw, rawRevertData err data = some raw
        ∧ decodeRevert env err data
            = "(unrecognized revert: " ++ raw.take 42 ++ "…)") := by
  cases h1 : errStringField err ErrObj.reason with
  | some r => exact Or.inl ⟨r, rfl, by simp [decodeRevert, h1]⟩
  | none =>
  cases h2 : errStringField err ErrObj.shortMessage with
  | some m =>
    exact Or.inr (Or.inl ⟨m, rfl, by simp [decodeRevert, h1, h2]⟩)
  | none =>
  cases h3 : rawRevertData err data with
  | none =>
    exact Or.inr (Or.inr (Or.inl (by simp [decodeRevert, h1, h2, h3])))
  | some raw =>
  cases h4 : jsStartsWith raw "0x" with
  | false =>
    exact Or.inr (Or.inr (Or.inl (by simp [decodeRevert, h1, h2, h3, h4])))
  | true =>
  by_cases hsel : raw.take 10 = "0x08c379a0"
  · cases h5 : env.decodeString ("0x" ++ raw.drop 10) with
    | some msg =>
      exact Or.inr (Or.inr (Or.inr (Or.inl ⟨raw, msg, rfl,
        h5, by simp [decodeRevert, h1, h2, h3, h4, hsel, h5]⟩)))
    | none =>
      cases hpan : jsStartsWith raw "0x4e487b71" with
      | true =>
        cases h6 : env.decodeUint ("0x" ++ raw.drop 10) with
        | some code =>
          exact Or.inr (Or.inr (Or.inr (Or.inr (Or.inl ⟨raw, code, rfl, h6,
            by simp [decodeRevert, h1, h2, h3, h4, hsel, h5, hpan, h6]⟩))))
        | none =>
          cases h7 : env.parseError raw with
          | some p =>
            exact Or.inr (Or.inr (Or.inr (Or.inr (Or.inr (Or.inl
              ⟨raw, p.1, p.2, rfl, by rw [h7], by
                simp [decodeRevert, h1, h2, h3, h4, hsel, h5, hpan, h6, h7]⟩)))))
          | none =>
            exact Or.inr (Or.inr (Or.inr (Or.inr (Or.inr (Or.inr ⟨raw, rfl, by
              simp [decodeRevert, h1, h2, h3, h4, hsel, h5, hpan, h6, h7]⟩)))))
      | false =>
        cases h7 : env.parseError raw with
        | some p =>
          exact Or.inr (Or.inr (Or.inr (Or.inr (Or.inr (Or.inl
            ⟨raw, p.1, p.2, rfl, by rw [h7], by
              simp [decodeRevert, h1, h2, h3, h4, hsel, h5, hpan, h7]⟩)))))
        | none =>
          exact Or.inr (Or.inr (Or.inr (Or.inr (Or.inr (Or.inr ⟨raw, rfl, by
            simp [decodeRevert, h1, h2, h3, h4, hsel, h5, hpan, h7]⟩)))))
  · cases hpan : jsStartsWith raw "0x4e487b71" with
    | true =>
      cases h6 : env.decodeUint ("0x" ++ raw.drop 10) with
      | some code =>
        exact Or.inr (Or.inr (Or.inr (Or.inr (Or.inl ⟨raw, code, rfl, h6,
          by simp [decodeRevert, h1, h2, h3, h4, hsel, hpan, h6]⟩))))
      | none =>
        cases h7 : env.parseError raw with
        | some p =>
          exact Or.inr (Or.inr (Or.inr (Or.inr (Or.inr (Or.inl
            ⟨raw, p.1, p.2, rfl, by rw [h7], by
              simp [decodeRevert, h1, h2, h3, h4, hsel, hpan, h6, h7]⟩)))))
        | none =>
          exact Or.inr (Or.inr (Or.inr (Or.inr (Or.inr (Or.inr ⟨raw, rfl, by
            simp [decodeRevert, h1, h2, h3, h4, hsel, hpan, h6, h7]⟩)))))
    | false =>
      cases h7 : env.parseError raw with
      | some p =>
        exact Or.inr (Or.inr (Or.inr (Or.inr (Or.inr (Or.inl
          ⟨raw, p.1, p.2, rfl, by rw [h7], by
            simp [decodeRevert, h1, h2, h3, h4, hsel, hpan, h7]⟩)))))
      | none =>
        exact Or.inr (Or.inr (Or.inr (Or.inr (Or.inr (Or.inr ⟨raw, rfl, by
          simp [decodeRevert, h1, h2, h3, h4, hsel, hpan, h7]⟩)))))

set_option maxRecDepth 8192 in
/-- C8 counterexample: for a 23-byte unrecognized revert payload, the
fallback output contains `raw.slice(0, 42)` — the `0x` prefix plus only
the first 20 bytes as hex — and differs from the claimed rendering of the
first 21 bytes of the data as hex. -/
theorem C8_counterexample :
    decodeRevert ⟨fun _ => none, fun _ => none, fun _ => none⟩ none
        (some "0xaaaaaaaaaaaaaaaaaaaaaaaaaaaaaaaaaaaaaaaabcde")
      = "(unrecognized revert: 0xaaaaaaaaaaaaaaaaaaaaaaaaaaaaaaaaaaaaaaaa…)"
    ∧ decodeRevert ⟨fun _ => none, fun _ => none, fun _ => none⟩ none
        (some "0xaaaaaaaaaaaaaaaaaaaaaaaaaaaaaaaaaaaaaaaabcde")
      ≠ "(unrecognized revert: "
          ++ firstBytesHex "0xaaaaaaaaaaaaaaaaaaaaaaaaaaaaaaaaaaaaaaaabcde" 21
          ++ "…)" := by
  refine ⟨by decide, by decide⟩

/-- C8 (amended): for every raw revert byte string matching none of the
earlier interpretations, `decodeRevert` returns
`"(unrecognized revert: "` followed by the first 42 characters of the raw
data string — its `0x` prefix plus the first 20 bytes rendered as hex —
followed by `"…)"`. -/
theorem C8_amended_fallback (env : AbiEnv) (err : Option ErrObj)
    (data : Option String) (raw : String)
    (h1 : errStringField err ErrObj.reason = none)
    (h2 : errStringField err ErrObj.shortMessage = none)
    (h3 : rawRevertData err data = some raw)
    (h4 : jsStartsWith raw "0x" = true)
    (h5 : raw.take 10 = "0x08c379a0" →
        env.decodeString ("0x" ++ raw.drop 10) = none)
    (h6 : jsStartsWith raw "0x4e487b71" = true →
        env.decodeUint ("0x" ++ raw.drop 10) = none)
    (h7 : env.parseError raw = none) :
    decodeRevert env err data
      = "(unrecognized revert: " ++ raw.take 42 ++ "…)" := by
  by_cases hsel : raw.take 10 = "0x08c379a0" <;>
    by_cases hpan : jsStartsWith raw "0x4e487b71" = true
  · simp [decodeRevert, h1, h2, h3, h4, hsel, h5 hsel, hpan, h6 hpan, h7]
  · simp [decodeRevert, h1, h2, h3, h4, hsel, h5 hsel, hpan, h7]
  · simp [decodeRevert, h1, h2, h3, h4, hsel, hpan, h6 hpan, h7]
  · simp [decodeRevert, h1, h2, h3, h4, hsel, hpan, h7]

set_option maxRecDepth 4096 in
/-- Witness for the amended C8 at the short payload `0xdeadbeef`, whose 42
character prefix is the whole string. -/
theorem C8_amended_fallback_witness :
    decodeRevert ⟨fun _ => none, fun _ => none, fun _ => none⟩ none
        (some "0xdeadbeef")
      = "(unrecognized revert: " ++ "0xdeadbeef".take 42 ++ "…)" :=
  C8_amended_fallback ⟨fun _ => none, fun _ => none, fun _ => none⟩ none
    (some "0xdeadbeef") "0xdeadbeef" rfl rfl rfl (by decide)
    (fun _ => rfl) (fun _ => rfl) rfl

end MulticallSdk
